import Mathlib

/-!
Shallow embedding of `src/experiments.py` (module `experiments`): two
generator-based context managers, `persistent_experiment` and
`temporary_experiment`, that set up an experiment run directory, pickle the
run arguments, attach logging handlers, and yield an `Experiment` record.

Modelling conventions:
* Filesystem paths are lists of components from an abstract root;
  `Path.home()` is modelled as the single component `"home"` (the absolute
  prefix is environment dependent and irrelevant to every claim).
* The process state (`World`) carries the directory set, the file map (file
  contents are pickle byte-blobs, modelled as token lists), the CPython
  `logging` module state (root level, root handlers, per-name handler lists),
  the emitted log records, stdout, stdin and the `tempfile` name counter.
* `pickle.dump` / `pickle.load` are modelled by an injective token encoding
  of the value domain (`PValue`) with a verified decoder.
* CPython `logging` semantics used by this file: a named logger created by
  `getLogger` has level NOTSET, so its effective level is the root logger's
  level (default WARNING = 30); `getLogger("")` is the root logger itself;
  a record is handled iff its level is at least the effective level, and is
  then passed to the logger's own handlers plus the root's handlers
  (propagation), each of which emits iff its own level is at most the
  record's level; the module-level `logging.info` first runs `basicConfig()`
  (installing a default console handler, level NOTSET = 0) when the root has
  no handlers, and `logging.basicConfig(level=INFO, handlers=[])` sets the
  root level to INFO (20) and installs nothing when the root has no
  handlers, doing nothing otherwise.
* `assert` failures are modelled as the spec's error names
  (`InvalidArgument` for the empty-name assert, `DirtyRepositoryError` for
  the `repo.is_dirty()` assert); `input()` on exhausted stdin is `EOFError`.
* `git.Repo(dev_folder).is_dirty()` is an environment observation, passed
  as the boolean parameter `repoDirty` (the repository object itself is not
  created by this module's code).
* `contextlib.contextmanager` semantics: the code before `yield` runs on
  `__enter__`; on a normal exit of the caller's block the code after `yield`
  runs; an exception raised in the caller's block is thrown into the
  generator at the `yield` and, since neither generator wraps the `yield`
  in `try`/`finally`, propagates at once — the code after `yield` does not
  run on that path.
-/

mutual
/-- Python values stored in the `args` mapping (the payload of
`pickle.dump`): `None`, strings, and string-keyed dicts. -/
inductive PValue where
  | pnone : PValue
  | pstr : String → PValue
  | pdict : PEntries → PValue
deriving DecidableEq

/-- Entry list of a Python dict (insertion ordered). -/
inductive PEntries where
  | nil : PEntries
  | cons : String → PValue → PEntries → PEntries
deriving DecidableEq
end

/-- Tokens of the pickle byte-stream model. -/
inductive PTok where
  | tNone : PTok
  | tStr : String → PTok
  | tDict : Nat → PTok
deriving DecidableEq, Repr

/-- Number of entries of a `PEntries` list (the dict length marker). -/
def PEntries.length' : PEntries → Nat
  | .nil => 0
  | .cons _ _ es => es.length' + 1

mutual
/-- `pickle.dump`: serialize a value to a token stream. -/
def encodeVal : PValue → List PTok
  | .pnone => [.tNone]
  | .pstr s => [.tStr s]
  | .pdict es => .tDict es.length' :: encodeEntries es

def encodeEntries : PEntries → List PTok
  | .nil => []
  | .cons k v es => .tStr k :: encodeVal v ++ encodeEntries es
end

mutual
/-- Fuelled decoder for one value; returns the value and the remaining
tokens. -/
def decodeVal : Nat → List PTok → Option (PValue × List PTok)
  | 0, _ => none
  | _ + 1, [] => none
  | _ + 1, .tNone :: r => some (.pnone, r)
  | _ + 1, .tStr s :: r => some (.pstr s, r)
  | fuel + 1, .tDict n :: r =>
    match decodeEntries fuel n r with
    | some (es, r1) => some (.pdict es, r1)
    | none => none

/-- Fuelled decoder for `n` dict entries. -/
def decodeEntries : Nat → Nat → List PTok → Option (PEntries × List PTok)
  | 0, _, _ => none
  | _ + 1, 0, r => some (.nil, r)
  | fuel + 1, n + 1, .tStr k :: r =>
    match decodeVal fuel r with
    | some (v, r1) =>
      match decodeEntries fuel n r1 with
      | some (es, r2) => some (.cons k v es, r2)
      | none => none
    | none => none
  | _ + 1, _ + 1, _ => none
end

mutual
/-- Fuel sufficient to decode an encoding of `v`. -/
def fuelNeeded : PValue → Nat
  | .pnone => 1
  | .pstr _ => 1
  | .pdict es => fuelNeededE es + 1

def fuelNeededE : PEntries → Nat
  | .nil => 1
  | .cons _ v es => max (fuelNeeded v) (fuelNeededE es) + 1
end

/-- `pickle.load` of a whole blob: decode with ample fuel and require the
stream to be fully consumed. -/
def pickleLoads (toks : List PTok) : Option PValue :=
  match decodeVal (toks.length + 1) toks with
  | some (v, []) => some v
  | _ => none

/-- A filesystem path, as components from an abstract root. -/
abbrev FPath := List String

/-- Render a path the way a Python f-string renders a `pathlib.Path`
(slash-joined, shown here without the environment-dependent absolute
prefix). -/
def pathStr (p : FPath) : String := String.intercalate "/" p

/-- A logging sink: the console stream or a file. -/
inductive Sink where
  | console : Sink
  | file : FPath → Sink
deriving DecidableEq, Repr

/-- A logging handler: a sink plus the handler's own level. -/
structure Handler where
  sink : Sink
  level : Nat
deriving DecidableEq, Repr

/-- A log record as delivered to one sink. -/
structure LogRecord where
  sink : Sink
  loggerName : String
  level : Nat
  msg : String
deriving DecidableEq, Repr

/-- logging.DEBUG -/
def DEBUG : Nat := 10

/-- logging.INFO -/
def INFO : Nat := 20

/-- logging.WARNING -/
def WARNING : Nat := 30

/-- The process state visible to this module: filesystem, `logging` module
state, emitted records, stdio and the `tempfile` counter. -/
structure World where
  dirs : List FPath
  files : List (FPath × List PTok)
  rootLevel : Nat
  rootHandlers : List Handler
  named : List (String × List Handler)
  records : List LogRecord
  stdout : List String
  stdin : List String
  tmpCounter : Nat
deriving DecidableEq, Repr

/-- The immutable experiment record (`@dataclass Experiment`). -/
structure Experiment where
  name : String
  path : FPath
deriving DecidableEq, Repr

/-- Errors of a context entry.  `invalidArgument` and
`dirtyRepositoryError` model the two `assert` statements (lines 28 and 32),
`eofError` models `input()` at end of input, and `bodyError` stands for an
arbitrary exception raised inside the caller's `with` block. -/
inductive PyError where
  | invalidArgument : PyError
  | dirtyRepositoryError : PyError
  | eofError : PyError
  | bodyError : PyError
deriving DecidableEq, Repr

/-- Outcome of running a context entry (and possibly the scoped block):
either the yielded `Experiment` with the state, or a raised error with the
state at the raise. -/
inductive EnterResult where
  | ok : Experiment → World → EnterResult
  | err : PyError → World → EnterResult
deriving DecidableEq, Repr

/-- The world carried by a result. -/
def EnterResult.world : EnterResult → World
  | .ok _ w => w
  | .err _ w => w

/-- Whether the entry succeeded. -/
def EnterResult.isOk : EnterResult → Bool
  | .ok _ _ => true
  | .err _ _ => false

/-- `Path.home() / 'dev/project/'` (line 30). -/
def devFolder : FPath := ["home", "dev", "project"]

/-- `dev_folder / 'experiments'` (line 35). -/
def experimentsFolder : FPath := devFolder ++ ["experiments"]

/-- All nonempty prefixes of a path (the chain of directories
`mkdir(parents=True)` ensures). -/
def ancestors (p : FPath) : List FPath :=
  (List.range p.length).map (fun i => p.take (i + 1))

/-- `p.mkdir(exist_ok=True, parents=True)`: the path and all its parents
exist afterwards (directory existence is membership in `dirs`, so recording
paths more than once is harmless). -/
def mkdirParents (w : World) (p : FPath) : World :=
  { w with dirs := ancestors p ++ w.dirs }

/-- `print(s)`. -/
def printLine (w : World) (s : String) : World :=
  { w with stdout := w.stdout ++ [s] }

/-- `open(p, 'wb')` + `pickle.dump(v, fd)`: (over)write the file. -/
def writeFile (w : World) (p : FPath) (blob : List PTok) : World :=
  { w with files := (p, blob) :: w.files.filter (fun e => !(e.1 == p)) }

/-- `logging.FileHandler(p)` opens the log file eagerly, creating it empty
when absent. -/
def touchFile (w : World) (p : FPath) : World :=
  if (w.files.lookup p).isSome then w
  else { w with files := w.files ++ [(p, [])] }

/-- Append a handler to a logger's handler list in the registry. -/
def addHandlerAssoc : List (String × List Handler) → String → Handler →
    List (String × List Handler)
  | [], n, h => [(n, [h])]
  | (k, hs) :: rest, n, h =>
    if k = n then (k, hs ++ [h]) :: rest
    else (k, hs) :: addHandlerAssoc rest n h

/-- `logging.getLogger(name).addHandler(h)`.  `getLogger("")` (and
`getLogger(None)`) is the root logger, so an empty name adds to the root's
handlers. -/
def addNamedHandler (w : World) (name : String) (h : Handler) : World :=
  if name = "" then { w with rootHandlers := w.rootHandlers ++ [h] }
  else { w with named := addHandlerAssoc w.named name h }

/-- The handlers a record logged on logger `name` is offered to: the
logger's own plus (by propagation) the root's; the empty name is the root
itself. -/
def loggerHandlers (w : World) (name : String) : List Handler :=
  if name = "" then w.rootHandlers
  else ((w.named.lookup name).getD []) ++ w.rootHandlers

/-- `logger.log(lvl, msg)` for the logger called `name`.  Every logger this
module creates keeps level NOTSET, so its effective level is the root
level; the record is dropped below it, otherwise each handler whose level
is at most `lvl` emits a record to its sink. -/
def emitRecord (w : World) (name : String) (lvl : Nat) (msg : String) : World :=
  if w.rootLevel ≤ lvl then
    let hs := (loggerHandlers w name).filter (fun h => h.level ≤ lvl)
    let out : List LogRecord := hs.map (fun h => ⟨h.sink, name, lvl, msg⟩)
    { w with records := w.records ++ out }
  else w

/-- Module-level `logging.info(msg)` (line 66): when the root has no
handlers it first runs `basicConfig()`, which installs a default console
`StreamHandler` (handler level NOTSET = 0) and leaves the root level
unchanged; then the record is logged on the root logger. -/
def loggingModuleInfo (w : World) (msg : String) : World :=
  let w1 := if w.rootHandlers = [] then
              { w with rootHandlers := [⟨Sink.console, 0⟩] } else w
  emitRecord w1 "" INFO msg

/-- `logging.basicConfig(encoding='utf-8', level=logging.INFO, handlers=[])`
(line 92): when the root has no handlers, set the root level to INFO and
install the given handlers (none); otherwise do nothing. -/
def basicConfigInfoNoHandlers (w : World) : World :=
  if w.rootHandlers = [] then { w with rootLevel := INFO } else w

/-- The directory name `tempfile.mkdtemp()` allocates for counter value
`n`, under the system temporary root. -/
def tmpPath (n : Nat) : FPath := ["tmp", "tmp" ++ Nat.repr n]

/-- `tempfile.mkdtemp()` (line 78): create a fresh empty directory under
the system temporary root and return its path. -/
def mkdtemp (w : World) : FPath × World :=
  (tmpPath w.tmpCounter,
   { w with tmpCounter := w.tmpCounter + 1,
            dirs := tmpPath w.tmpCounter :: w.dirs })

/-- Lines 37-64 of `persistent_experiment` after the two asserts and the
overwrite prompt: create `data` and `code`, pickle `args`, attach the file
and console handlers, log the announcement, and yield the `Experiment`. -/
def persistentSetup (exp_name : String) (args : PValue) (w : World) :
    EnterResult :=
  let exp_folder := experimentsFolder ++ [exp_name]
  let data := exp_folder ++ ["data"]
  let w1 := mkdirParents w data
  let w2 := mkdirParents w1 (exp_folder ++ ["code"])
  let w3 := writeFile w2 (data ++ ["args.pkl"]) (encodeVal args)
  let logPath := data ++ [exp_name ++ ".log"]
  let w4 := touchFile w3 logPath
  let w5 := addNamedHandler w4 exp_name ⟨Sink.file logPath, DEBUG⟩
  let w6 := addNamedHandler w5 exp_name ⟨Sink.console, INFO⟩
  let w7 := emitRecord w6 exp_name INFO
    ("Created a new persistent experiment at path " ++ pathStr exp_folder ++ ".")
  .ok ⟨exp_name, exp_folder⟩ w7

/-- `persistent_experiment(exp_name, args)` up to and including the
`yield` (lines 28-64).  `repoDirty` is `Repo(dev_folder).is_dirty()`. -/
def persistentEnter (repoDirty : Bool) (exp_name : String) (args : PValue)
    (w : World) : EnterResult :=
  if exp_name.length = 0 then .err .invalidArgument w
  else if repoDirty then .err .dirtyRepositoryError w
  else
    let data := experimentsFolder ++ [exp_name] ++ ["data"]
    if data ∈ w.dirs then
      let w1 := printLine w
        (pathStr data ++
         " already exists, risk of overwriting existing data! Proceed anyway?")
      match w1.stdin with
      | [] => .err .eofError w1
      | _ :: rest => persistentSetup exp_name args { w1 with stdin := rest }
    else persistentSetup exp_name args w

/-- The code after `yield` in `persistent_experiment` (line 66), run on a
normal exit of the caller's block: `logging.info("Cleanly exited.")` on the
root logger. -/
def persistentExitNormal (w : World) : World :=
  loggingModuleInfo w "Cleanly exited."

/-- `temporary_experiment(exp_name, args)` up to and including the `yield`
(lines 78-114). -/
def temporaryEnter (exp_name : String) (args : PValue) (w : World) :
    EnterResult :=
  let pw := mkdtemp w
  let exp_folder := pw.1
  let w0 := pw.2
  let data := exp_folder ++ ["data"]
  let w1 := if data ∈ w0.dirs then
              printLine w0 (pathStr data ++ " already exists, risk of overwriting...")
            else w0
  let w2 := mkdirParents w1 data
  let w3 := mkdirParents w2 (exp_folder ++ ["code"])
  let w4 := writeFile w3 (data ++ ["args.pkl"]) (encodeVal args)
  let w5 := basicConfigInfoNoHandlers w4
  let logPath := data ++ [exp_name ++ ".log"]
  let w6 := touchFile w5 logPath
  let w7 := addNamedHandler w6 exp_name ⟨Sink.file logPath, DEBUG⟩
  let w8 := addNamedHandler w7 exp_name ⟨Sink.console, INFO⟩
  let w9 := emitRecord w8 exp_name WARNING
    "This is a temporary experiment. Results will *not* be saved to disk. Proceed?"
  match w9.stdin with
  | [] => .err .eofError w9
  | _ :: rest =>
    let w10 := { w9 with stdin := rest }
    let w11 := emitRecord w10 exp_name INFO
      ("Created a new temporary experiment at path " ++ pathStr exp_folder ++ ".")
    .ok ⟨exp_name, exp_folder⟩ w11

/-- `temporary_experiment()` with both parameters defaulted:
`exp_name='temporary_experiment'` and `args=None` (line 70). -/
def temporaryEnterDefaults (w : World) : EnterResult :=
  temporaryEnter "temporary_experiment" PValue.pnone w

/-- The code after `yield` in `temporary_experiment` (line 117), run on a
normal exit of the caller's block: `logger.info("Cleanly exited")` on the
experiment logger (the commented-out cleanup is dead code; the directory
stays). -/
def temporaryExitNormal (exp_name : String) (w : World) : World :=
  emitRecord w exp_name INFO "Cleanly exited"

/-- Run `with persistent_experiment(name, args) as exp: body`.  When the
body raises, the exception is thrown into the generator at the `yield`;
with no `try`/`finally` there, line 66 is skipped and the error
propagates with the state exactly as it was at the yield. -/
def persistentRun (repoDirty : Bool) (exp_name : String) (args : PValue)
    (bodyRaises : Bool) (w : World) : EnterResult :=
  match persistentEnter repoDirty exp_name args w with
  | .err e w1 => .err e w1
  | .ok exp w1 =>
    if bodyRaises then .err .bodyError w1
    else .ok exp (persistentExitNormal w1)

/-- Run `with temporary_experiment(name, args) as exp: body`; as above,
line 117 runs only on the normal exit path. -/
def temporaryRun (exp_name : String) (args : PValue) (bodyRaises : Bool)
    (w : World) : EnterResult :=
  match temporaryEnter exp_name args w with
  | .err e w1 => .err e w1
  | .ok exp w1 =>
    if bodyRaises then .err .bodyError w1
    else .ok exp (temporaryExitNormal exp_name w1)

/-- The state of a fresh Python process right after `import experiments`:
empty filesystem view, `logging` at its defaults (root level WARNING, no
handlers), nothing printed or logged, the given stdin. -/
def initialWorld (stdin : List String) : World :=
  { dirs := [], files := [], rootLevel := WARNING, rootHandlers := [],
    named := [], records := [], stdout := [], stdin := stdin,
    tmpCounter := 0 }

/-- The `tempfile` freshness guarantee: every temporary-directory name not
yet handed out is absent from the filesystem.  It holds in a fresh process
and is maintained by every operation of this module. -/
def TmpFresh (w : World) : Prop :=
  ∀ n, w.tmpCounter ≤ n → ∀ p ∈ w.dirs, ¬ (tmpPath n <+: p)

/-- A world with its remaining stdin hidden: two worlds with the same
`eraseStdin` image agree on everything the program can observe other than
the not-yet-read operator input. -/
def eraseStdin (w : World) : World := { w with stdin := [] }

/-- Observation of a result that hides the unread remainder of stdin (used
to compare two runs that were given different operator responses). -/
def EnterResult.obs : EnterResult → EnterResult
  | .ok exp w => .ok exp { w with stdin := [] }
  | .err e w => .err e { w with stdin := [] }

theorem fuelNeeded_pos (v : PValue) : 1 ≤ fuelNeeded v := by
  cases v <;> simp [fuelNeeded]

theorem fuelNeededE_pos (es : PEntries) : 1 ≤ fuelNeededE es := by
  cases es <;> simp [fuelNeededE]

mutual
theorem decodeVal_encodeVal : ∀ (v : PValue) (fuel : Nat) (rest : List PTok),
    fuelNeeded v ≤ fuel → decodeVal fuel (encodeVal v ++ rest) = some (v, rest)
  | v, 0, _, h => absurd h (by have := fuelNeeded_pos v; omega)
  | .pnone, fuel + 1, rest, _ => by simp [encodeVal, decodeVal]
  | .pstr s, fuel + 1, rest, _ => by simp [encodeVal, decodeVal]
  | .pdict es, fuel + 1, rest, h => by
    have hE : fuelNeededE es ≤ fuel := by
      simp [fuelNeeded] at h; omega
    have ih := decodeEntries_encodeEntries es fuel rest hE
    simp [encodeVal, decodeVal, ih]

theorem decodeEntries_encodeEntries : ∀ (es : PEntries) (fuel : Nat)
    (rest : List PTok), fuelNeededE es ≤ fuel →
    decodeEntries fuel es.length' (encodeEntries es ++ rest) = some (es, rest)
  | es, 0, _, h => absurd h (by have := fuelNeededE_pos es; omega)
  | .nil, fuel + 1, rest, _ => by
    simp [encodeEntries, PEntries.length', decodeEntries]
  | .cons k v es, fuel + 1, rest, h => by
    have hv : fuelNeeded v ≤ fuel := by
      simp [fuelNeededE] at h; omega
    have he : fuelNeededE es ≤ fuel := by
      simp [fuelNeededE] at h; omega
    have ih1 := decodeVal_encodeVal v fuel (encodeEntries es ++ rest) hv
    have ih2 := decodeEntries_encodeEntries es fuel rest he
    simp [encodeEntries, PEntries.length', decodeEntries, List.append_assoc,
      ih1, ih2]
end

mutual
theorem fuelNeeded_le_len : ∀ v : PValue,
    fuelNeeded v ≤ (encodeVal v).length + 1
  | .pnone => by simp [fuelNeeded, encodeVal]
  | .pstr s => by simp [fuelNeeded, encodeVal]
  | .pdict es => by
    have ih := fuelNeededE_le_len es
    simp [fuelNeeded, encodeVal]; omega

theorem fuelNeededE_le_len : ∀ es : PEntries,
    fuelNeededE es ≤ (encodeEntries es).length + 1
  | .nil => by simp [fuelNeededE, encodeEntries]
  | .cons k v es => by
    have ih1 := fuelNeeded_le_len v
    have ih2 := fuelNeededE_le_len es
    simp [fuelNeededE, encodeEntries]; omega
end

/-- The pickle model round-trips: loading a dumped value gives the value
back. -/
theorem pickleLoads_encodeVal (v : PValue) :
    pickleLoads (encodeVal v) = some v := by
  have h := decodeVal_encodeVal v ((encodeVal v).length + 1) []
    (fuelNeeded_le_len v)
  rw [List.append_nil] at h
  unfold pickleLoads
  rw [h]

theorem self_mem_ancestors (p : FPath) (h : p ≠ []) : p ∈ ancestors p := by
  unfold ancestors
  have hl : 0 < p.length := List.length_pos.mpr h
  refine List.mem_map.mpr ⟨p.length - 1, List.mem_range.mpr (by omega), ?_⟩
  rw [Nat.sub_add_cancel hl, List.take_length]

@[simp] theorem mkdirParents_dirs (w : World) (p : FPath) :
    (mkdirParents w p).dirs = ancestors p ++ w.dirs := rfl
@[simp] theorem mkdirParents_files (w : World) (p : FPath) :
    (mkdirParents w p).files = w.files := rfl
@[simp] theorem mkdirParents_rootLevel (w : World) (p : FPath) :
    (mkdirParents w p).rootLevel = w.rootLevel := rfl
@[simp] theorem mkdirParents_rootHandlers (w : World) (p : FPath) :
    (mkdirParents w p).rootHandlers = w.rootHandlers := rfl
@[simp] theorem mkdirParents_named (w : World) (p : FPath) :
    (mkdirParents w p).named = w.named := rfl
@[simp] theorem mkdirParents_records (w : World) (p : FPath) :
    (mkdirParents w p).records = w.records := rfl
@[simp] theorem mkdirParents_stdout (w : World) (p : FPath) :
    (mkdirParents w p).stdout = w.stdout := rfl
@[simp] theorem mkdirParents_stdin (w : World) (p : FPath) :
    (mkdirParents w p).stdin = w.stdin := rfl
@[simp] theorem mkdirParents_tmpCounter (w : World) (p : FPath) :
    (mkdirParents w p).tmpCounter = w.tmpCounter := rfl

@[simp] theorem printLine_dirs (w : World) (s : String) :
    (printLine w s).dirs = w.dirs := rfl
@[simp] theorem printLine_files (w : World) (s : String) :
    (printLine w s).files = w.files := rfl
@[simp] theorem printLine_rootLevel (w : World) (s : String) :
    (printLine w s).rootLevel = w.rootLevel := rfl
@[simp] theorem printLine_rootHandlers (w : World) (s : String) :
    (printLine w s).rootHandlers = w.rootHandlers := rfl
@[simp] theorem printLine_named (w : World) (s : String) :
    (printLine w s).named = w.named := rfl
@[simp] theorem printLine_records (w : World) (s : String) :
    (printLine w s).records = w.records := rfl
@[simp] theorem printLine_stdout (w : World) (s : String) :
    (printLine w s).stdout = w.stdout ++ [s] := rfl
@[simp] theorem printLine_stdin (w : World) (s : String) :
    (printLine w s).stdin = w.stdin := rfl
@[simp] theorem printLine_tmpCounter (w : World) (s : String) :
    (printLine w s).tmpCounter = w.tmpCounter := rfl

@[simp] theorem writeFile_dirs (w : World) (p : FPath) (b : List PTok) :
    (writeFile w p b).dirs = w.dirs := rfl
@[simp] theorem writeFile_files (w : World) (p : FPath) (b : List PTok) :
    (writeFile w p b).files =
      (p, b) :: w.files.filter (fun e => !(e.1 == p)) := rfl
@[simp] theorem writeFile_rootLevel (w : World) (p : FPath) (b : List PTok) :
    (writeFile w p b).rootLevel = w.rootLevel := rfl
@[simp] theorem writeFile_rootHandlers (w : World) (p : FPath) (b : List PTok) :
    (writeFile w p b).rootHandlers = w.rootHandlers := rfl
@[simp] theorem writeFile_named (w : World) (p : FPath) (b : List PTok) :
    (writeFile w p b).named = w.named := rfl
@[simp] theorem writeFile_records (w : World) (p : FPath) (b : List PTok) :
    (writeFile w p b).records = w.records := rfl
@[simp] theorem writeFile_stdout (w : World) (p : FPath) (b : List PTok) :
    (writeFile w p b).stdout = w.stdout := rfl
@[simp] theorem writeFile_stdin (w : World) (p : FPath) (b : List PTok) :
    (writeFile w p b).stdin = w.stdin := rfl
@[simp] theorem writeFile_tmpCounter (w : World) (p : FPath) (b : List PTok) :
    (writeFile w p b).tmpCounter = w.tmpCounter := rfl

@[simp] theorem touchFile_dirs (w : World) (p : FPath) :
    (touchFile w p).dirs = w.dirs := by unfold touchFile; split <;> rfl
@[simp] theorem touchFile_rootLevel (w : World) (p : FPath) :
    (touchFile w p).rootLevel = w.rootLevel := by unfold touchFile; split <;> rfl
@[simp] theorem touchFile_rootHandlers (w : World) (p : FPath) :
    (touchFile w p).rootHandlers = w.rootHandlers := by
  unfold touchFile; split <;> rfl
@[simp] theorem touchFile_named (w : World) (p : FPath) :
    (touchFile w p).named = w.named := by unfold touchFile; split <;> rfl
@[simp] theorem touchFile_records (w : World) (p : FPath) :
    (touchFile w p).records = w.records := by unfold touchFile; split <;> rfl
@[simp] theorem touchFile_stdout (w : World) (p : FPath) :
    (touchFile w p).stdout = w.stdout := by unfold touchFile; split <;> rfl
@[simp] theorem touchFile_stdin (w : World) (p : FPath) :
    (touchFile w p).stdin = w.stdin := by unfold touchFile; split <;> rfl
@[simp] theorem touchFile_tmpCounter (w : World) (p : FPath) :
    (touchFile w p).tmpCounter = w.tmpCounter := by unfold touchFile; split <;> rfl

@[simp] theorem addNamedHandler_dirs (w : World) (n : String) (h : Handler) :
    (addNamedHandler w n h).dirs = w.dirs := by unfold addNamedHandler; split <;> rfl
@[simp] theorem addNamedHandler_files (w : World) (n : String) (h : Handler) :
    (addNamedHandler w n h).files = w.files := by
  unfold addNamedHandler; split <;> rfl
@[simp] theorem addNamedHandler_rootLevel (w : World) (n : String) (h : Handler) :
    (addNamedHandler w n h).rootLevel = w.rootLevel := by
  unfold addNamedHandler; split <;> rfl
@[simp] theorem addNamedHandler_records (w : World) (n : String) (h : Handler) :
    (addNamedHandler w n h).records = w.records := by
  unfold addNamedHandler; split <;> rfl
@[simp] theorem addNamedHandler_stdout (w : World) (n : String) (h : Handler) :
    (addNamedHandler w n h).stdout = w.stdout := by
  unfold addNamedHandler; split <;> rfl
@[simp] theorem addNamedHandler_stdin (w : World) (n : String) (h : Handler) :
    (addNamedHandler w n h).stdin = w.stdin := by
  unfold addNamedHandler; split <;> rfl
@[simp] theorem addNamedHandler_tmpCounter (w : World) (n : String) (h : Handler) :
    (addNamedHandler w n h).tmpCounter = w.tmpCounter := by
  unfold addNamedHandler; split <;> rfl

@[simp] theorem emitRecord_dirs (w : World) (n : String) (l : Nat) (m : String) :
    (emitRecord w n l m).dirs = w.dirs := by unfold emitRecord; split <;> rfl
@[simp] theorem emitRecord_files (w : World) (n : String) (l : Nat) (m : String) :
    (emitRecord w n l m).files = w.files := by unfold emitRecord; split <;> rfl
@[simp] theorem emitRecord_rootLevel (w : World) (n : String) (l : Nat) (m : String) :
    (emitRecord w n l m).rootLevel = w.rootLevel := by
  unfold emitRecord; split <;> rfl
@[simp] theorem emitRecord_rootHandlers (w : World) (n : String) (l : Nat) (m : String) :
    (emitRecord w n l m).rootHandlers = w.rootHandlers := by
  unfold emitRecord; split <;> rfl
@[simp] theorem emitRecord_named (w : World) (n : String) (l : Nat) (m : String) :
    (emitRecord w n l m).named = w.named := by unfold emitRecord; split <;> rfl
@[simp] theorem emitRecord_stdout (w : World) (n : String) (l : Nat) (m : String) :
    (emitRecord w n l m).stdout = w.stdout := by unfold emitRecord; split <;> rfl
@[simp] theorem emitRecord_stdin (w : World) (n : String) (l : Nat) (m : String) :
    (emitRecord w n l m).stdin = w.stdin := by unfold emitRecord; split <;> rfl
@[simp] theorem emitRecord_tmpCounter (w : World) (n : String) (l : Nat) (m : String) :
    (emitRecord w n l m).tmpCounter = w.tmpCounter := by
  unfold emitRecord; split <;> rfl

@[simp] theorem basicConfig_dirs (w : World) :
    (basicConfigInfoNoHandlers w).dirs = w.dirs := by
  unfold basicConfigInfoNoHandlers; split <;> rfl
@[simp] theorem basicConfig_files (w : World) :
    (basicConfigInfoNoHandlers w).files = w.files := by
  unfold basicConfigInfoNoHandlers; split <;> rfl
@[simp] theorem basicConfig_rootHandlers (w : World) :
    (basicConfigInfoNoHandlers w).rootHandlers = w.rootHandlers := by
  unfold basicConfigInfoNoHandlers; split <;> rfl
@[simp] theorem basicConfig_named (w : World) :
    (basicConfigInfoNoHandlers w).named = w.named := by
  unfold basicConfigInfoNoHandlers; split <;> rfl
@[simp] theorem basicConfig_records (w : World) :
    (basicConfigInfoNoHandlers w).records = w.records := by
  unfold basicConfigInfoNoHandlers; split <;> rfl
@[simp] theorem basicConfig_stdout (w : World) :
    (basicConfigInfoNoHandlers w).stdout = w.stdout := by
  unfold basicConfigInfoNoHandlers; split <;> rfl
@[simp] theorem basicConfig_stdin (w : World) :
    (basicConfigInfoNoHandlers w).stdin = w.stdin := by
  unfold basicConfigInfoNoHandlers; split <;> rfl
@[simp] theorem basicConfig_tmpCounter (w : World) :
    (basicConfigInfoNoHandlers w).tmpCounter = w.tmpCounter := by
  unfold basicConfigInfoNoHandlers; split <;> rfl

theorem lookup_append_left {l1 l2 : List (FPath × List PTok)} {a : FPath}
    {b : List PTok} (h : l1.lookup a = some b) :
    (l1 ++ l2).lookup a = some b := by
  induction l1 with
  | nil => simp [List.lookup] at h
  | cons e t ih =>
    rw [List.cons_append]
    rw [List.lookup] at h ⊢
    by_cases he : a == e.1
    · simpa [he] using h
    · simp only [he] at h ⊢
      exact ih h

theorem writeFile_lookup (w : World) (p : FPath) (b : List PTok) :
    (writeFile w p b).files.lookup p = some b := by
  simp [writeFile, List.lookup]

theorem touchFile_lookup_some (w : World) (q p : FPath) (b : List PTok)
    (h : w.files.lookup p = some b) :
    (touchFile w q).files.lookup p = some b := by
  unfold touchFile
  split
  · exact h
  · exact lookup_append_left h

theorem persistentSetup_world_eq (n : String) (a : PValue) (w : World) :
    persistentSetup n a w =
      .ok ⟨n, experimentsFolder ++ [n]⟩ (persistentSetup n a w).world := rfl

theorem persistentSetup_data_mem (n : String) (a : PValue) (w : World) :
    (experimentsFolder ++ [n] ++ ["data"]) ∈
      (persistentSetup n a w).world.dirs := by
  simp only [persistentSetup, EnterResult.world, emitRecord_dirs,
    addNamedHandler_dirs, touchFile_dirs, writeFile_dirs, mkdirParents_dirs]
  refine List.mem_append.mpr (Or.inr (List.mem_append.mpr (Or.inl ?_)))
  exact self_mem_ancestors _ (by simp [experimentsFolder, devFolder])

theorem persistentSetup_code_mem (n : String) (a : PValue) (w : World) :
    (experimentsFolder ++ [n] ++ ["code"]) ∈
      (persistentSetup n a w).world.dirs := by
  simp only [persistentSetup, EnterResult.world, emitRecord_dirs,
    addNamedHandler_dirs, touchFile_dirs, writeFile_dirs, mkdirParents_dirs]
  refine List.mem_append.mpr (Or.inl ?_)
  exact self_mem_ancestors _ (by simp [experimentsFolder, devFolder])

theorem persistentSetup_args_lookup (n : String) (a : PValue) (w : World) :
    (persistentSetup n a w).world.files.lookup
      (experimentsFolder ++ [n] ++ ["data"] ++ ["args.pkl"]) =
      some (encodeVal a) := by
  simp only [persistentSetup, EnterResult.world, emitRecord_files,
    addNamedHandler_files]
  exact touchFile_lookup_some _ _ _ _ (writeFile_lookup _ _ _)

theorem persistentSetup_stdout (n : String) (a : PValue) (w : World) :
    (persistentSetup n a w).world.stdout = w.stdout := by
  simp [persistentSetup, EnterResult.world]

theorem persistentSetup_stdin (n : String) (a : PValue) (w : World) :
    (persistentSetup n a w).world.stdin = w.stdin := by
  simp [persistentSetup, EnterResult.world]

theorem persistentSetup_rootLevel (n : String) (a : PValue) (w : World) :
    (persistentSetup n a w).world.rootLevel = w.rootLevel := by
  simp [persistentSetup, EnterResult.world]

theorem persistentSetup_records_dropped (n : String) (a : PValue) (w : World)
    (h : INFO < w.rootLevel) :
    (persistentSetup n a w).world.records = w.records := by
  simp only [persistentSetup, EnterResult.world]
  rw [emitRecord]
  split
  · next hc =>
    rw [addNamedHandler_rootLevel, addNamedHandler_rootLevel,
      touchFile_rootLevel, writeFile_rootLevel, mkdirParents_rootLevel,
      mkdirParents_rootLevel] at hc
    omega
  · simp

theorem temporaryEnter_ok_shape (n : String) (a : PValue) (w : World)
    (s : String) (rest : List String) (h : w.stdin = s :: rest) :
    ∃ w1, temporaryEnter n a w = .ok ⟨n, tmpPath w.tmpCounter⟩ w1 ∧
      (tmpPath w.tmpCounter ++ ["data"]) ∈ w1.dirs ∧
      (tmpPath w.tmpCounter ++ ["code"]) ∈ w1.dirs ∧
      w1.files.lookup (tmpPath w.tmpCounter ++ ["data"] ++ ["args.pkl"]) =
        some (encodeVal a) ∧
      w1.stdin = rest := by
  unfold temporaryEnter mkdtemp
  set c := w.tmpCounter with hc
  by_cases hd : (tmpPath c ++ ["data"]) ∈
      ({ w with tmpCounter := c + 1, dirs := tmpPath c :: w.dirs } : World).dirs
  · simp only [if_pos hd, emitRecord_stdin, addNamedHandler_stdin,
      touchFile_stdin, basicConfig_stdin, writeFile_stdin, mkdirParents_stdin,
      printLine_stdin, h]
    refine ⟨_, rfl, ?_, ?_, ?_, ?_⟩
    · simp only [emitRecord_dirs, addNamedHandler_dirs, touchFile_dirs,
        basicConfig_dirs, writeFile_dirs, mkdirParents_dirs]
      refine List.mem_append.mpr (Or.inr (List.mem_append.mpr (Or.inl ?_)))
      exact self_mem_ancestors _ (by simp [tmpPath])
    · simp only [emitRecord_dirs, addNamedHandler_dirs, touchFile_dirs,
        basicConfig_dirs, writeFile_dirs, mkdirParents_dirs]
      exact List.mem_append.mpr (Or.inl (self_mem_ancestors _ (by simp [tmpPath])))
    · simp only [emitRecord_files, addNamedHandler_files]
      refine touchFile_lookup_some _ _ _ _ ?_
      rw [basicConfig_files]
      exact writeFile_lookup _ _ _
    · simp
  · simp only [if_neg hd, emitRecord_stdin, addNamedHandler_stdin,
      touchFile_stdin, basicConfig_stdin, writeFile_stdin, mkdirParents_stdin, h]
    refine ⟨_, rfl, ?_, ?_, ?_, ?_⟩
    · simp only [emitRecord_dirs, addNamedHandler_dirs, touchFile_dirs,
        basicConfig_dirs, writeFile_dirs, mkdirParents_dirs]
      refine List.mem_append.mpr (Or.inr (List.mem_append.mpr (Or.inl ?_)))
      exact self_mem_ancestors _ (by simp [tmpPath])
    · simp only [emitRecord_dirs, addNamedHandler_dirs, touchFile_dirs,
        basicConfig_dirs, writeFile_dirs, mkdirParents_dirs]
      exact List.mem_append.mpr (Or.inl (self_mem_ancestors _ (by simp [tmpPath])))
    · simp only [emitRecord_files, addNamedHandler_files]
      refine touchFile_lookup_some _ _ _ _ ?_
      rw [basicConfig_files]
      exact writeFile_lookup _ _ _
    · simp

theorem temporaryEnter_stdin_nil (n : String) (a : PValue) (w : World)
    (h : w.stdin = []) : (temporaryEnter n a w).isOk = false := by
  unfold temporaryEnter mkdtemp
  by_cases hd : (tmpPath w.tmpCounter ++ ["data"]) ∈
      ({ w with tmpCounter := w.tmpCounter + 1,
                dirs := tmpPath w.tmpCounter :: w.dirs } : World).dirs
  · simp only [if_pos hd, emitRecord_stdin, addNamedHandler_stdin,
      touchFile_stdin, basicConfig_stdin, writeFile_stdin, mkdirParents_stdin,
      printLine_stdin, h]
    rfl
  · simp only [if_neg hd, emitRecord_stdin, addNamedHandler_stdin,
      touchFile_stdin, basicConfig_stdin, writeFile_stdin, mkdirParents_stdin, h]
    rfl

/-- C4: with uncommitted changes in the dev source tree, `persistent`
entry with a non-empty name fails with `DirtyRepositoryError` and leaves
the state (in particular the filesystem) exactly unchanged: no `data` or
`code` directory is created. -/
theorem dirty_repo_fails_before_side_effects (n : String) (a : PValue)
    (w : World) (hn : n.length ≠ 0) :
    persistentEnter true n a w = .err .dirtyRepositoryError w := by
  unfold persistentEnter
  rw [if_neg hn, if_pos rfl]

theorem dirty_repo_fails_before_side_effects_witness :
    ("exp1".length ≠ 0) ∧
      persistentEnter true "exp1" PValue.pnone (initialWorld []) =
        .err .dirtyRepositoryError (initialWorld []) :=
  ⟨by decide,
   dirty_repo_fails_before_side_effects "exp1" PValue.pnone (initialWorld [])
     (by decide)⟩

theorem persistentEnter_ok_inv (d : Bool) (n : String) (a : PValue)
    (w : World) (exp : Experiment) (w1 : World)
    (h : persistentEnter d n a w = .ok exp w1) :
    d = false ∧ n.length ≠ 0 ∧
      ∃ wpre, persistentSetup n a wpre = .ok exp w1 ∧
        wpre.rootLevel = w.rootLevel ∧ wpre.rootHandlers = w.rootHandlers ∧
        wpre.records = w.records ∧ wpre.dirs = w.dirs ∧
        wpre.files = w.files := by
  unfold persistentEnter at h
  by_cases hn : n.length = 0
  · rw [if_pos hn] at h
    exact EnterResult.noConfusion h
  · simp only [if_neg hn] at h
    cases d with
    | true => simp at h
    | false =>
      simp only [Bool.false_eq_true, if_false] at h
      refine ⟨rfl, hn, ?_⟩
      by_cases he : (experimentsFolder ++ [n] ++ ["data"]) ∈ w.dirs
      · simp only [if_pos he] at h
        rcases hw : w.stdin with _ | ⟨shd, stl⟩
        · simp only [printLine_stdin, hw] at h
          exact EnterResult.noConfusion h
        · simp only [printLine_stdin, hw] at h
          exact ⟨_, h, by simp, by simp, by simp, by simp, by simp⟩
      · simp only [if_neg he] at h
        exact ⟨w, h, rfl, rfl, rfl, rfl, rfl⟩

/-- C5: for both context managers, whenever the `Experiment` handle is
yielded, `root/data` and `root/code` already exist and `data/args.pkl`
already holds the serialized args — established before any caller code in
the `with` body runs. -/
theorem yield_invariant_dirs_and_args :
    (∀ (d : Bool) (n : String) (a : PValue) (w : World) (exp : Experiment)
        (w1 : World), persistentEnter d n a w = .ok exp w1 →
        exp.path ++ ["data"] ∈ w1.dirs ∧ exp.path ++ ["code"] ∈ w1.dirs ∧
        w1.files.lookup (exp.path ++ ["data"] ++ ["args.pkl"]) =
          some (encodeVal a)) ∧
    (∀ (n : String) (a : PValue) (w : World) (exp : Experiment) (w1 : World),
        temporaryEnter n a w = .ok exp w1 →
        exp.path ++ ["data"] ∈ w1.dirs ∧ exp.path ++ ["code"] ∈ w1.dirs ∧
        w1.files.lookup (exp.path ++ ["data"] ++ ["args.pkl"]) =
          some (encodeVal a)) := by
  constructor
  · intro d n a w exp w1 h
    obtain ⟨-, -, wpre, hs, -⟩ := persistentEnter_ok_inv d n a w exp w1 h
    rw [persistentSetup_world_eq] at hs
    rw [EnterResult.ok.injEq] at hs
    obtain ⟨hexp, hw1⟩ := hs
    subst hw1
    rw [← hexp]
    exact ⟨persistentSetup_data_mem n a wpre, persistentSetup_code_mem n a wpre,
      persistentSetup_args_lookup n a wpre⟩
  · intro n a w exp w1 h
    rcases hw : w.stdin with _ | ⟨shd, stl⟩
    · have := temporaryEnter_stdin_nil n a w hw
      rw [h] at this
      simp [EnterResult.isOk] at this
    · obtain ⟨w2, he, hdata, hcode, hargs, -⟩ :=
        temporaryEnter_ok_shape n a w shd stl hw
      rw [h, EnterResult.ok.injEq] at he
      obtain ⟨hexp, hw1⟩ := he
      subst hw1
      rw [hexp]
      exact ⟨hdata, hcode, hargs⟩

theorem yield_invariant_dirs_and_args_witness :
    (persistentEnter false "exp1" PValue.pnone (initialWorld []) =
        .ok ⟨"exp1", experimentsFolder ++ ["exp1"]⟩
          (persistentEnter false "exp1" PValue.pnone (initialWorld [])).world ∧
      (experimentsFolder ++ ["exp1"] ++ ["data"]) ∈
        (persistentEnter false "exp1" PValue.pnone (initialWorld [])).world.dirs) ∧
    (temporaryEnter "t" PValue.pnone (initialWorld ["y"]) =
        .ok ⟨"t", tmpPath 0⟩
          (temporaryEnter "t" PValue.pnone (initialWorld ["y"])).world ∧
      (tmpPath 0 ++ ["data"]) ∈
        (temporaryEnter "t" PValue.pnone (initialWorld ["y"])).world.dirs) := by
  constructor
  · refine ⟨by rfl, ?_⟩
    exact (yield_invariant_dirs_and_args.1 false "exp1" PValue.pnone
      (initialWorld []) ⟨"exp1", experimentsFolder ++ ["exp1"]⟩ _ (by rfl)).1
  · refine ⟨by rfl, ?_⟩
    exact (yield_invariant_dirs_and_args.2 "t" PValue.pnone
      (initialWorld ["y"]) ⟨"t", tmpPath 0⟩ _ (by rfl)).1

/-- C7: a successful persistent entry (clean tree, non-empty name) yields
an `Experiment` whose `path/data` and `path/code` directories exist and
whose `path/data` holds the serialized-args artifact, which deserializes
back to the args that were passed in (serialize-then-deserialize round
trip). -/
theorem persistent_roundtrip (n : String) (a : PValue) (w : World)
    (exp : Experiment) (w1 : World) (_hn : n.length ≠ 0)
    (h : persistentEnter false n a w = .ok exp w1) :
    exp.path ++ ["data"] ∈ w1.dirs ∧ exp.path ++ ["code"] ∈ w1.dirs ∧
    w1.files.lookup (exp.path ++ ["data"] ++ ["args.pkl"]) =
      some (encodeVal a) ∧ pickleLoads (encodeVal a) = some a := by
  obtain ⟨-, -, wpre, hs, -⟩ := persistentEnter_ok_inv false n a w exp w1 h
  rw [persistentSetup_world_eq, EnterResult.ok.injEq] at hs
  obtain ⟨hexp, hw1⟩ := hs
  subst hw1
  rw [← hexp]
  exact ⟨persistentSetup_data_mem n a wpre, persistentSetup_code_mem n a wpre,
    persistentSetup_args_lookup n a wpre, pickleLoads_encodeVal a⟩

theorem persistent_roundtrip_witness :
    ("exp1".length ≠ 0) ∧
    persistentEnter false "exp1"
        (PValue.pdict (PEntries.cons "lr" (PValue.pstr "0.1") PEntries.nil))
        (initialWorld []) =
      .ok ⟨"exp1", experimentsFolder ++ ["exp1"]⟩
        (persistentEnter false "exp1"
          (PValue.pdict (PEntries.cons "lr" (PValue.pstr "0.1") PEntries.nil))
          (initialWorld [])).world ∧
    pickleLoads (encodeVal
        (PValue.pdict (PEntries.cons "lr" (PValue.pstr "0.1") PEntries.nil))) =
      some (PValue.pdict (PEntries.cons "lr" (PValue.pstr "0.1") PEntries.nil)) := by
  refine ⟨by decide, by rfl, ?_⟩
  exact (persistent_roundtrip "exp1"
    (PValue.pdict (PEntries.cons "lr" (PValue.pstr "0.1") PEntries.nil))
    (initialWorld []) ⟨"exp1", experimentsFolder ++ ["exp1"]⟩ _
    (by decide) (by rfl)).2.2.2

/-- C2 counterexample: the claim says an empty name always fails with
`InvalidArgument` for both variants, but the temporary context manager
performs no name validation: entering it with the empty name succeeds. -/
theorem empty_name_temporary_accepted :
    (temporaryEnter "" PValue.pnone (initialWorld ["y"])).isOk = true := by
  rfl

/-- C2 (amended): calling the persistent context manager with an empty
name always fails with `InvalidArgument` before any side effect (the state
is returned unchanged); the temporary context manager does not validate
the name, and entering it with an empty name succeeds whenever operator
input is available. -/
theorem empty_name_validation :
    (∀ (d : Bool) (a : PValue) (w : World),
        persistentEnter d "" a w = .err .invalidArgument w) ∧
    (∀ (a : PValue) (w : World) (s : String) (rest : List String),
        w.stdin = s :: rest → (temporaryEnter "" a w).isOk = true) := by
  constructor
  · intro d a w
    unfold persistentEnter
    rw [if_pos (by rfl)]
  · intro a w s rest h
    obtain ⟨w1, he, -⟩ := temporaryEnter_ok_shape "" a w s rest h
    rw [he]
    rfl

theorem empty_name_validation_witness :
    (persistentEnter false "" PValue.pnone (initialWorld []) =
        .err .invalidArgument (initialWorld [])) ∧
    ((initialWorld ["y"]).stdin = "y" :: [] ∧
      (temporaryEnter "" (PValue.pstr "x") (initialWorld ["y"])).isOk = true) := by
  refine ⟨empty_name_validation.1 false PValue.pnone (initialWorld []), rfl, ?_⟩
  exact empty_name_validation.2 (PValue.pstr "x") (initialWorld ["y"]) "y" [] rfl

/-- C6 counterexample: the claim says the no-argument default for `args`
equals the empty mapping, but the signature defaults `args` to `None`: the
blob a no-argument entry writes to `data/args.pkl` deserializes to `None`,
which is not the empty mapping. -/
theorem temporary_default_args_not_empty_mapping :
    (temporaryEnterDefaults (initialWorld ["y"])).world.files.lookup
        (tmpPath 0 ++ ["data"] ++ ["args.pkl"]) =
      some (encodeVal PValue.pnone) ∧
    pickleLoads (encodeVal PValue.pnone) = some PValue.pnone ∧
    PValue.pnone ≠ PValue.pdict PEntries.nil ∧
    encodeVal PValue.pnone ≠ encodeVal (PValue.pdict PEntries.nil) := by
  exact ⟨by rfl, by rfl, by decide, by decide⟩

/-- C6 (amended): calling the temporary context manager's enter with no
arguments uses the default name `"temporary_experiment"` and the default
args `None` (not the empty mapping), and succeeds — yielding an
`Experiment` rooted in the ephemeral temporary area — whenever operator
input is available for the confirmation prompt. -/
theorem temporary_defaults (w : World) (s : String) (rest : List String)
    (h : w.stdin = s :: rest) :
    temporaryEnterDefaults w =
      temporaryEnter "temporary_experiment" PValue.pnone w ∧
    temporaryEnterDefaults w =
      .ok ⟨"temporary_experiment", tmpPath w.tmpCounter⟩
        ((temporaryEnterDefaults w).world) ∧
    (temporaryEnterDefaults w).world.files.lookup
        (tmpPath w.tmpCounter ++ ["data"] ++ ["args.pkl"]) =
      some (encodeVal PValue.pnone) := by
  obtain ⟨w1, he, -, -, hargs, -⟩ :=
    temporaryEnter_ok_shape "temporary_experiment" PValue.pnone w s rest h
  have hd : temporaryEnterDefaults w =
      .ok ⟨"temporary_experiment", tmpPath w.tmpCounter⟩ w1 := he
  refine ⟨rfl, ?_, ?_⟩
  · rw [hd]
    rfl
  · rw [hd]
    exact hargs

theorem temporary_defaults_witness :
    (initialWorld ["y"]).stdin = "y" :: [] ∧
    temporaryEnterDefaults (initialWorld ["y"]) =
      temporaryEnter "temporary_experiment" PValue.pnone (initialWorld ["y"]) ∧
    (temporaryEnterDefaults (initialWorld ["y"])).isOk = true := by
  refine ⟨rfl, (temporary_defaults (initialWorld ["y"]) "y" [] rfl).1, by rfl⟩

theorem persistentEnter_prompt_branch (n : String) (a : PValue) (w : World)
    (s : String) (rest : List String) (hn : n.length ≠ 0)
    (hd : (experimentsFolder ++ [n] ++ ["data"]) ∈ w.dirs)
    (hs : w.stdin = s :: rest) :
    ∃ wpre, persistentEnter false n a w = persistentSetup n a wpre ∧
      wpre.stdout = w.stdout ++
        [pathStr (experimentsFolder ++ [n] ++ ["data"]) ++
          " already exists, risk of overwriting existing data! Proceed anyway?"] ∧
      wpre.stdin = rest := by
  unfold persistentEnter
  rw [if_neg hn]
  simp only [Bool.false_eq_true, if_false]
  rw [if_pos hd]
  simp only [printLine_stdin, hs]
  exact ⟨_, rfl, by simp, by simp⟩

theorem persistentEnter_noprompt_branch (n : String) (a : PValue) (w : World)
    (hn : n.length ≠ 0)
    (hd : (experimentsFolder ++ [n] ++ ["data"]) ∉ w.dirs) :
    persistentEnter false n a w = persistentSetup n a w := by
  unfold persistentEnter
  rw [if_neg hn]
  simp only [Bool.false_eq_true, if_false]
  rw [if_neg hd]

/-- C8: re-entering the persistent manager with a non-empty name whose
`data` directory already exists (clean tree, operator input available)
does not raise: the overwrite-risk confirmation prompt is printed, one
line of operator input is consumed, and entry completes successfully
through the same directory/serialization steps; and the prompt fires only
in that pre-existing case — without a pre-existing `data` directory
nothing is printed and no input is consumed. -/
theorem reenter_prompt_confirmation (n : String) (a : PValue) (w : World)
    (s : String) (rest : List String) (hn : n.length ≠ 0)
    (hd : (experimentsFolder ++ [n] ++ ["data"]) ∈ w.dirs)
    (hs : w.stdin = s :: rest) :
    (persistentEnter false n a w).isOk = true ∧
    (persistentEnter false n a w).world.stdout = w.stdout ++
      [pathStr (experimentsFolder ++ [n] ++ ["data"]) ++
        " already exists, risk of overwriting existing data! Proceed anyway?"] ∧
    (persistentEnter false n a w).world.stdin = rest ∧
    (experimentsFolder ++ [n] ++ ["data"]) ∈
      (persistentEnter false n a w).world.dirs ∧
    (experimentsFolder ++ [n] ++ ["code"]) ∈
      (persistentEnter false n a w).world.dirs ∧
    (persistentEnter false n a w).world.files.lookup
      (experimentsFolder ++ [n] ++ ["data"] ++ ["args.pkl"]) =
      some (encodeVal a) ∧
    (∀ w2 : World, (experimentsFolder ++ [n] ++ ["data"]) ∉ w2.dirs →
      (persistentEnter false n a w2).world.stdout = w2.stdout ∧
      (persistentEnter false n a w2).world.stdin = w2.stdin) := by
  obtain ⟨wpre, hE, ho, hi⟩ :=
    persistentEnter_prompt_branch n a w s rest hn hd hs
  refine ⟨?_, ?_, ?_, ?_, ?_, ?_, ?_⟩
  · rw [hE, persistentSetup_world_eq]
    rfl
  · rw [hE, persistentSetup_stdout, ho]
  · rw [hE, persistentSetup_stdin, hi]
  · rw [hE]
    exact persistentSetup_data_mem n a wpre
  · rw [hE]
    exact persistentSetup_code_mem n a wpre
  · rw [hE]
    exact persistentSetup_args_lookup n a wpre
  · intro w2 hd2
    rw [persistentEnter_noprompt_branch n a w2 hn hd2]
    exact ⟨persistentSetup_stdout n a w2, persistentSetup_stdin n a w2⟩

theorem reenter_prompt_confirmation_witness :
    ("exp1".length ≠ 0 ∧
      (experimentsFolder ++ ["exp1"] ++ ["data"]) ∈
        ({ initialWorld ["y"] with
            dirs := [experimentsFolder ++ ["exp1"] ++ ["data"]] } : World).dirs ∧
      ({ initialWorld ["y"] with
          dirs := [experimentsFolder ++ ["exp1"] ++ ["data"]] } : World).stdin =
        "y" :: []) ∧
    (persistentEnter false "exp1" PValue.pnone
      { initialWorld ["y"] with
          dirs := [experimentsFolder ++ ["exp1"] ++ ["data"]] }).isOk = true := by
  refine ⟨⟨by decide, by simp, rfl⟩, ?_⟩
  exact (reenter_prompt_confirmation "exp1" PValue.pnone
    { initialWorld ["y"] with
        dirs := [experimentsFolder ++ ["exp1"] ++ ["data"]] }
    "y" [] (by decide) (by simp) rfl).1

/-- C10: the temporary manager's pre-existing-data warning branch is
unreachable: under the `tempfile` freshness guarantee (`TmpFresh`), the
`data` subdirectory of the freshly created temporary root does not exist
at the existence check, so every temporary entry takes the no-warning
path and prints nothing to stdout. -/
theorem temporary_warning_branch_unreachable (n : String) (a : PValue)
    (w : World) (hf : TmpFresh w) :
    ((mkdtemp w).1 ++ ["data"]) ∉ (mkdtemp w).2.dirs ∧
    (temporaryEnter n a w).world.stdout = w.stdout := by
  have hd : (tmpPath w.tmpCounter ++ ["data"]) ∉
      ({ w with tmpCounter := w.tmpCounter + 1,
                dirs := tmpPath w.tmpCounter :: w.dirs } : World).dirs := by
    intro hmem
    rcases List.mem_cons.mp hmem with h1 | h2
    · simp [tmpPath] at h1
    · exact hf w.tmpCounter le_rfl _ h2 (List.prefix_append _ _)
  refine ⟨hd, ?_⟩
  unfold temporaryEnter mkdtemp
  simp only [if_neg hd]
  rcases hst : w.stdin with _ | ⟨s, t⟩
  · simp only [emitRecord_stdin, addNamedHandler_stdin, touchFile_stdin,
      basicConfig_stdin, writeFile_stdin, mkdirParents_stdin, hst]
    simp [EnterResult.world]
  · simp only [emitRecord_stdin, addNamedHandler_stdin, touchFile_stdin,
      basicConfig_stdin, writeFile_stdin, mkdirParents_stdin, hst]
    simp [EnterResult.world]

theorem temporary_warning_branch_unreachable_witness :
    TmpFresh (initialWorld ["y"]) ∧
    (temporaryEnter "t" PValue.pnone (initialWorld ["y"])).world.stdout =
      (initialWorld ["y"]).stdout := by
  refine ⟨?_, ?_⟩
  · intro m hm p hp
    simp [initialWorld] at hp
  · exact (temporary_warning_branch_unreachable "t" PValue.pnone
      (initialWorld ["y"])
      (by intro m hm p hp; simp [initialWorld] at hp)).2

theorem eraseStdin_set (w : World) (x : List String) :
    eraseStdin { w with stdin := x } = eraseStdin w := rfl

theorem mkdirParents_congr {u v : World} (p : FPath)
    (h : eraseStdin u = eraseStdin v) :
    eraseStdin (mkdirParents u p) = eraseStdin (mkdirParents v p) := by
  cases u
  cases v
  simp only [eraseStdin, World.mk.injEq] at h
  obtain ⟨e1, e2, e3, e4, e5, e6, e7, -, e8⟩ := h
  subst e1 e2 e3 e4 e5 e6 e7 e8
  rfl

theorem printLine_congr {u v : World} (s : String)
    (h : eraseStdin u = eraseStdin v) :
    eraseStdin (printLine u s) = eraseStdin (printLine v s) := by
  cases u
  cases v
  simp only [eraseStdin, World.mk.injEq] at h
  obtain ⟨e1, e2, e3, e4, e5, e6, e7, -, e8⟩ := h
  subst e1 e2 e3 e4 e5 e6 e7 e8
  rfl

theorem writeFile_congr {u v : World} (p : FPath) (b : List PTok)
    (h : eraseStdin u = eraseStdin v) :
    eraseStdin (writeFile u p b) = eraseStdin (writeFile v p b) := by
  cases u
  cases v
  simp only [eraseStdin, World.mk.injEq] at h
  obtain ⟨e1, e2, e3, e4, e5, e6, e7, -, e8⟩ := h
  subst e1 e2 e3 e4 e5 e6 e7 e8
  rfl

theorem touchFile_congr {u v : World} (p : FPath)
    (h : eraseStdin u = eraseStdin v) :
    eraseStdin (touchFile u p) = eraseStdin (touchFile v p) := by
  cases u
  cases v
  simp only [eraseStdin, World.mk.injEq] at h
  obtain ⟨e1, e2, e3, e4, e5, e6, e7, -, e8⟩ := h
  subst e1 e2 e3 e4 e5 e6 e7 e8
  unfold touchFile
  split <;> rfl

theorem addNamedHandler_congr {u v : World} (n : String) (hh : Handler)
    (h : eraseStdin u = eraseStdin v) :
    eraseStdin (addNamedHandler u n hh) = eraseStdin (addNamedHandler v n hh) := by
  cases u
  cases v
  simp only [eraseStdin, World.mk.injEq] at h
  obtain ⟨e1, e2, e3, e4, e5, e6, e7, -, e8⟩ := h
  subst e1 e2 e3 e4 e5 e6 e7 e8
  unfold addNamedHandler
  split <;> rfl

theorem emitRecord_congr {u v : World} (n : String) (l : Nat) (m : String)
    (h : eraseStdin u = eraseStdin v) :
    eraseStdin (emitRecord u n l m) = eraseStdin (emitRecord v n l m) := by
  cases u
  cases v
  simp only [eraseStdin, World.mk.injEq] at h
  obtain ⟨e1, e2, e3, e4, e5, e6, e7, -, e8⟩ := h
  subst e1 e2 e3 e4 e5 e6 e7 e8
  unfold emitRecord
  split <;> rfl

theorem basicConfig_congr {u v : World}
    (h : eraseStdin u = eraseStdin v) :
    eraseStdin (basicConfigInfoNoHandlers u) =
      eraseStdin (basicConfigInfoNoHandlers v) := by
  cases u
  cases v
  simp only [eraseStdin, World.mk.injEq] at h
  obtain ⟨e1, e2, e3, e4, e5, e6, e7, -, e8⟩ := h
  subst e1 e2 e3 e4 e5 e6 e7 e8
  unfold basicConfigInfoNoHandlers
  split <;> rfl

theorem persistentSetup_obs_congr (n : String) (a : PValue) {u v : World}
    (h : eraseStdin u = eraseStdin v) :
    (persistentSetup n a u).obs = (persistentSetup n a v).obs := by
  unfold persistentSetup
  simp only [EnterResult.obs]
  congr 1
  exact emitRecord_congr _ _ _ (addNamedHandler_congr _ _ (addNamedHandler_congr _ _
    (touchFile_congr _ (writeFile_congr _ _ (mkdirParents_congr _
      (mkdirParents_congr _ h))))))

theorem eraseStdin_update_both {u v : World} (du : List FPath) (cu : Nat)
    (h : eraseStdin u = eraseStdin v) :
    eraseStdin ({ u with tmpCounter := cu, dirs := du } : World) =
      eraseStdin ({ v with tmpCounter := cu, dirs := du } : World) := by
  cases u
  cases v
  simp only [eraseStdin, World.mk.injEq] at h
  obtain ⟨e1, e2, e3, e4, e5, e6, e7, -, e8⟩ := h
  subst e1 e2 e3 e4 e5 e6 e7 e8
  rfl

theorem persistentEnter_obs_congr (d : Bool) (n : String) (a : PValue)
    {u v : World} (h : eraseStdin u = eraseStdin v)
    (hu : u.stdin ≠ []) (hv : v.stdin ≠ []) :
    (persistentEnter d n a u).obs = (persistentEnter d n a v).obs := by
  have hdirs0 := congrArg World.dirs h
  have hdirs : u.dirs = v.dirs := hdirs0
  unfold persistentEnter
  by_cases hn : n.length = 0
  · simp only [if_pos hn, EnterResult.obs]
    congr 1
  · simp only [if_neg hn]
    cases d with
    | true =>
      simp only [eq_self_iff_true, if_true, EnterResult.obs]
      congr 1
    | false =>
      simp only [Bool.false_eq_true, if_false]
      rw [hdirs]
      by_cases hd : (experimentsFolder ++ [n] ++ ["data"]) ∈ v.dirs
      · simp only [if_pos hd]
        rcases hu' : u.stdin with _ | ⟨x, xs⟩
        · exact absurd hu' hu
        rcases hv' : v.stdin with _ | ⟨y, ys⟩
        · exact absurd hv' hv
        simp only [printLine_stdin, hu', hv']
        apply persistentSetup_obs_congr
        rw [eraseStdin_set, eraseStdin_set]
        exact printLine_congr _ h
      · simp only [if_neg hd]
        exact persistentSetup_obs_congr n a h

theorem temporaryEnter_obs_congr (n : String) (a : PValue) {u v : World}
    (h : eraseStdin u = eraseStdin v) (hu : u.stdin ≠ []) (hv : v.stdin ≠ []) :
    (temporaryEnter n a u).obs = (temporaryEnter n a v).obs := by
  have hdirs0 := congrArg World.dirs h
  have hdirs : u.dirs = v.dirs := hdirs0
  have htmp0 := congrArg World.tmpCounter h
  have htmp : u.tmpCounter = v.tmpCounter := htmp0
  unfold temporaryEnter mkdtemp
  rw [htmp, hdirs]
  have h0 : eraseStdin ({ u with tmpCounter := v.tmpCounter + 1,
                                 dirs := tmpPath v.tmpCounter :: v.dirs } : World) =
      eraseStdin ({ v with tmpCounter := v.tmpCounter + 1,
                           dirs := tmpPath v.tmpCounter :: v.dirs } : World) :=
    eraseStdin_update_both (tmpPath v.tmpCounter :: v.dirs) (v.tmpCounter + 1) h
  rcases hu' : u.stdin with _ | ⟨x, xs⟩
  · exact absurd hu' hu
  rcases hv' : v.stdin with _ | ⟨y, ys⟩
  · exact absurd hv' hv
  by_cases hd : (tmpPath v.tmpCounter ++ ["data"]) ∈
      ({ u with tmpCounter := v.tmpCounter + 1,
                dirs := tmpPath v.tmpCounter :: v.dirs } : World).dirs
  · have hd2 : (tmpPath v.tmpCounter ++ ["data"]) ∈
        ({ v with tmpCounter := v.tmpCounter + 1,
                  dirs := tmpPath v.tmpCounter :: v.dirs } : World).dirs := hd
    simp only [if_pos hd, if_pos hd2, emitRecord_stdin, addNamedHandler_stdin,
      touchFile_stdin, basicConfig_stdin, writeFile_stdin, mkdirParents_stdin,
      printLine_stdin, hu', hv']
    simp only [EnterResult.obs]
    congr 1
    refine emitRecord_congr _ _ _ ?_
    rw [eraseStdin_set, eraseStdin_set]
    exact emitRecord_congr _ _ _ (addNamedHandler_congr _ _
      (addNamedHandler_congr _ _ (touchFile_congr _ (basicConfig_congr
        (writeFile_congr _ _ (mkdirParents_congr _ (mkdirParents_congr _
          (printLine_congr _ h0))))))))
  · have hd2 : ¬ (tmpPath v.tmpCounter ++ ["data"]) ∈
        ({ v with tmpCounter := v.tmpCounter + 1,
                  dirs := tmpPath v.tmpCounter :: v.dirs } : World).dirs := hd
    simp only [if_neg hd, if_neg hd2, emitRecord_stdin, addNamedHandler_stdin,
      touchFile_stdin, basicConfig_stdin, writeFile_stdin, mkdirParents_stdin,
      hu', hv']
    simp only [EnterResult.obs]
    congr 1
    refine emitRecord_congr _ _ _ ?_
    rw [eraseStdin_set, eraseStdin_set]
    exact emitRecord_congr _ _ _ (addNamedHandler_congr _ _
      (addNamedHandler_congr _ _ (touchFile_congr _ (basicConfig_congr
        (writeFile_congr _ _ (mkdirParents_congr _ (mkdirParents_congr _ h0)))))))

/-- C9: the operator's answer to the interactive confirmation prompt does
not influence behaviour: from the same state, with any two (non-empty)
input streams, each context manager produces the same result — the same
yielded `Experiment`, the same filesystem contents, the same log records
and the same printed output — differing only in the unread remainder of
stdin. -/
theorem prompt_response_noninterference (d : Bool) (n : String) (a : PValue)
    (w : World) (s1 s2 : List String) (h1 : s1 ≠ []) (h2 : s2 ≠ []) :
    (persistentEnter d n a { w with stdin := s1 }).obs =
      (persistentEnter d n a { w with stdin := s2 }).obs ∧
    (temporaryEnter n a { w with stdin := s1 }).obs =
      (temporaryEnter n a { w with stdin := s2 }).obs := by
  have h : eraseStdin { w with stdin := s1 } =
      eraseStdin { w with stdin := s2 } := rfl
  have hs1 : ({ w with stdin := s1 } : World).stdin ≠ [] := h1
  have hs2 : ({ w with stdin := s2 } : World).stdin ≠ [] := h2
  exact ⟨persistentEnter_obs_congr d n a h hs1 hs2,
    temporaryEnter_obs_congr n a h hs1 hs2⟩

theorem prompt_response_noninterference_witness :
    (["yes"] : List String) ≠ [] ∧ (["no"] : List String) ≠ [] ∧
    (temporaryEnter "t" PValue.pnone
        { initialWorld [] with stdin := ["yes"] }).obs =
      (temporaryEnter "t" PValue.pnone
        { initialWorld [] with stdin := ["no"] }).obs := by
  refine ⟨by decide, by decide, ?_⟩
  exact (prompt_response_noninterference false "t" PValue.pnone
    (initialWorld []) ["yes"] ["no"] (by decide) (by decide)).2

theorem basicConfig_rootLevel_of_empty (w : World) (h : w.rootHandlers = []) :
    (basicConfigInfoNoHandlers w).rootLevel = INFO := by
  unfold basicConfigInfoNoHandlers
  rw [if_pos h]

theorem loggingModuleInfo_records_dropped (w : World) (m : String)
    (h : INFO < w.rootLevel) : (loggingModuleInfo w m).records = w.records := by
  have h2 : 20 < w.rootLevel := h
  have h3 : ¬ (w.rootLevel ≤ INFO) := by
    simp only [INFO]
    omega
  unfold loggingModuleInfo
  by_cases hr : w.rootHandlers = []
  · simp only [if_pos hr]
    unfold emitRecord
    split
    · next hc => exact absurd (by simpa using hc) h3
    · rfl
  · simp only [if_neg hr]
    unfold emitRecord
    split
    · next hc => exact absurd hc h3
    · rfl

theorem temporaryEnter_fresh_logging (n : String) (a : PValue) (w : World)
    (s : String) (rest : List String) (hw : w.stdin = s :: rest)
    (h0 : w.rootHandlers = []) (h1 : w.named = []) :
    ∃ w1, temporaryEnter n a w = .ok ⟨n, tmpPath w.tmpCounter⟩ w1 ∧
      w1.rootLevel = INFO ∧
      loggerHandlers w1 n =
        [⟨Sink.file (tmpPath w.tmpCounter ++ ["data"] ++ [n ++ ".log"]), DEBUG⟩,
         ⟨Sink.console, INFO⟩] := by
  unfold temporaryEnter mkdtemp
  by_cases hd : (tmpPath w.tmpCounter ++ ["data"]) ∈
      ({ w with tmpCounter := w.tmpCounter + 1,
                dirs := tmpPath w.tmpCounter :: w.dirs } : World).dirs
  · simp only [if_pos hd, emitRecord_stdin, addNamedHandler_stdin,
      touchFile_stdin, basicConfig_stdin, writeFile_stdin, mkdirParents_stdin,
      printLine_stdin, hw]
    refine ⟨_, rfl, ?_, ?_⟩
    · simp only [emitRecord_rootLevel, addNamedHandler_rootLevel,
        touchFile_rootLevel]
      rw [basicConfig_rootLevel_of_empty]
      simp [h0]
    · unfold loggerHandlers
      by_cases hn : n = ""
      · subst hn
        simp [addNamedHandler, h0]
      · simp [hn, addNamedHandler, addHandlerAssoc, h1, List.lookup, h0]
  · simp only [if_neg hd, emitRecord_stdin, addNamedHandler_stdin,
      touchFile_stdin, basicConfig_stdin, writeFile_stdin, mkdirParents_stdin,
      hw]
    refine ⟨_, rfl, ?_, ?_⟩
    · simp only [emitRecord_rootLevel, addNamedHandler_rootLevel,
        touchFile_rootLevel]
      rw [basicConfig_rootLevel_of_empty]
      simp [h0]
    · unfold loggerHandlers
      by_cases hn : n = ""
      · subst hn
        simp [addNamedHandler, h0]
      · simp [hn, addNamedHandler, addHandlerAssoc, h1, List.lookup, h0]

theorem temporaryRun_normal_records (n : String) (a : PValue) (w : World)
    (s : String) (rest : List String) (hw : w.stdin = s :: rest)
    (h0 : w.rootHandlers = []) (h1 : w.named = []) :
    (temporaryRun n a false w).world.records =
      (temporaryEnter n a w).world.records ++
      [⟨Sink.file (tmpPath w.tmpCounter ++ ["data"] ++ [n ++ ".log"]), n, INFO,
        "Cleanly exited"⟩,
       ⟨Sink.console, n, INFO, "Cleanly exited"⟩] := by
  obtain ⟨w1, he, hrl, hlh⟩ := temporaryEnter_fresh_logging n a w s rest hw h0 h1
  unfold temporaryRun
  rw [he]
  show (temporaryExitNormal n w1).records = w1.records ++ _
  unfold temporaryExitNormal emitRecord
  rw [if_pos (by rw [hrl])]
  rw [hlh]
  simp [DEBUG, INFO]

theorem persistentRun_normal_records (n : String) (a : PValue) (w : World)
    (exp : Experiment) (w1 : World) (hrl : w.rootLevel = WARNING)
    (h : persistentEnter false n a w = .ok exp w1) :
    persistentRun false n a false w = .ok exp (persistentExitNormal w1) ∧
    (persistentExitNormal w1).records = w1.records ∧
    w1.records = w.records := by
  obtain ⟨-, -, wpre, hs, hrl2, -, hrec, -, -⟩ :=
    persistentEnter_ok_inv false n a w exp w1 h
  rw [persistentSetup_world_eq, EnterResult.ok.injEq] at hs
  obtain ⟨hexp, hw1⟩ := hs
  have hwrl : w1.rootLevel = WARNING := by
    rw [← hw1, persistentSetup_rootLevel, hrl2, hrl]
  have hrec1 : w1.records = w.records := by
    rw [← hw1, persistentSetup_records_dropped n a wpre
      (by rw [hrl2, hrl]; decide)]
    exact hrec
  refine ⟨?_, ?_, hrec1⟩
  · unfold persistentRun
    rw [h]
    rfl
  · unfold persistentExitNormal
    exact loggingModuleInfo_records_dropped w1 _ (by rw [hwrl]; decide)

/-- C1 counterexample: a temporary entry succeeds (the block is entered),
yet when the block raises, the propagating error leaves the log records
without any completion entry — no record with a "Cleanly exited" message
exists on the error path (while the normal exit of the same run produces
two) — so a completion entry is not emitted on every exit path. -/
theorem completion_logging_error_path_counterexample :
    (temporaryEnter "t" PValue.pnone (initialWorld ["y"])).isOk = true ∧
    ((temporaryRun "t" PValue.pnone true (initialWorld ["y"])).world.records.filter
      (fun r => r.msg == "Cleanly exited" || r.msg == "Cleanly exited.")) = [] ∧
    ((temporaryRun "t" PValue.pnone false (initialWorld ["y"])).world.records.filter
      (fun r => r.msg == "Cleanly exited")).length = 2 := by
  exact ⟨by rfl, by rfl, by rfl⟩

/-- C1 (amended): once the block has been entered, completion logging runs
only on the normal exit path.  When an error raised inside the block
propagates, neither manager emits anything: the final log records are
exactly the records at the yield (there is no `try`/`finally`).  On a
normal exit, the temporary manager appends its info completion entry to
its file and console sinks (in a fresh-process logging state), while the
persistent manager's module-level `logging.info` call is dropped below the
root logger's default WARNING threshold and appends nothing. -/
theorem completion_logging_only_on_normal_exit :
    (∀ (d : Bool) (n : String) (a : PValue) (w : World) (exp : Experiment)
        (w1 : World), persistentEnter d n a w = .ok exp w1 →
        (persistentRun d n a true w).world.records = w1.records) ∧
    (∀ (n : String) (a : PValue) (w : World) (exp : Experiment) (w1 : World),
        temporaryEnter n a w = .ok exp w1 →
        (temporaryRun n a true w).world.records = w1.records) ∧
    (∀ (n : String) (a : PValue) (w : World) (s : String) (rest : List String),
        w.stdin = s :: rest → w.rootHandlers = [] → w.named = [] →
        (temporaryRun n a false w).world.records =
          (temporaryEnter n a w).world.records ++
          [⟨Sink.file (tmpPath w.tmpCounter ++ ["data"] ++ [n ++ ".log"]), n,
            INFO, "Cleanly exited"⟩,
           ⟨Sink.console, n, INFO, "Cleanly exited"⟩]) ∧
    (∀ (n : String) (a : PValue) (w : World) (exp : Experiment) (w1 : World),
        w.rootLevel = WARNING → persistentEnter false n a w = .ok exp w1 →
        (persistentRun false n a false w).world.records = w1.records) := by
  refine ⟨?_, ?_, ?_, ?_⟩
  · intro d n a w exp w1 h
    unfold persistentRun
    rw [h]
    rfl
  · intro n a w exp w1 h
    unfold temporaryRun
    rw [h]
    rfl
  · intro n a w s rest hw h0 h1
    exact temporaryRun_normal_records n a w s rest hw h0 h1
  · intro n a w exp w1 hrl h
    obtain ⟨hrun, hexit, -⟩ := persistentRun_normal_records n a w exp w1 hrl h
    rw [hrun]
    exact hexit

theorem completion_logging_only_on_normal_exit_witness :
    (persistentRun false "exp1" PValue.pnone true (initialWorld [])).world.records =
      (persistentEnter false "exp1" PValue.pnone (initialWorld [])).world.records ∧
    (temporaryRun "t" PValue.pnone true (initialWorld ["y"])).world.records =
      (temporaryEnter "t" PValue.pnone (initialWorld ["y"])).world.records ∧
    ((initialWorld ["y"]).stdin = "y" :: [] ∧
      (initialWorld ["y"]).rootHandlers = [] ∧ (initialWorld ["y"]).named = []) ∧
    (initialWorld []).rootLevel = WARNING ∧
    (persistentRun false "exp1" PValue.pnone false (initialWorld [])).world.records =
      (persistentEnter false "exp1" PValue.pnone (initialWorld [])).world.records := by
  refine ⟨?_, ?_, ⟨rfl, rfl, rfl⟩, rfl, ?_⟩
  · exact completion_logging_only_on_normal_exit.1 false "exp1" PValue.pnone
      (initialWorld []) ⟨"exp1", experimentsFolder ++ ["exp1"]⟩ _ (by rfl)
  · exact completion_logging_only_on_normal_exit.2.1 "t" PValue.pnone
      (initialWorld ["y"]) ⟨"t", tmpPath 0⟩ _ (by rfl)
  · exact completion_logging_only_on_normal_exit.2.2.2 "exp1" PValue.pnone
      (initialWorld []) ⟨"exp1", experimentsFolder ++ ["exp1"]⟩ _ rfl (by rfl)

/-- C3 counterexample: in a fresh process, a persistent entry followed by
a normal exit of the scoped block emits no log record at all — the
experiment-creation info record is dropped because the experiment logger's
effective level is the root's default WARNING, and the completion call
`logging.info` targets the root logger, which also drops it — so no
info-level completion entry is written to the file sink or the console
sink, contradicting the claim for the persistent manager. -/
theorem persistent_completion_reaches_no_sink :
    (persistentEnter false "exp1" PValue.pnone (initialWorld [])).isOk = true ∧
    (persistentRun false "exp1" PValue.pnone false (initialWorld [])).world.records = [] := by
  exact ⟨by rfl, by rfl⟩

/-- C3 (amended): after a normal exit of the temporary manager's scoped
block (started in a fresh-process logging state), an info-level completion
entry has been written both to the experiment's file sink
`data/<name>.log` and to its console sink; for the persistent manager the
completion call goes to the root logger at below its default WARNING
threshold, so the run appends no log record at all — in particular no
completion entry reaches either of the experiment's sinks. -/
theorem completion_entry_sinks :
    (∀ (n : String) (a : PValue) (w : World) (s : String) (rest : List String),
        w.stdin = s :: rest → w.rootHandlers = [] → w.named = [] →
        (⟨Sink.file (tmpPath w.tmpCounter ++ ["data"] ++ [n ++ ".log"]), n,
          INFO, "Cleanly exited"⟩ : LogRecord) ∈
            (temporaryRun n a false w).world.records ∧
        (⟨Sink.console, n, INFO, "Cleanly exited"⟩ : LogRecord) ∈
          (temporaryRun n a false w).world.records) ∧
    (∀ (n : String) (a : PValue) (w : World) (exp : Experiment) (w1 : World),
        w.rootLevel = WARNING → persistentEnter false n a w = .ok exp w1 →
        (persistentRun false n a false w).world.records = w.records) := by
  constructor
  · intro n a w s rest hw h0 h1
    rw [temporaryRun_normal_records n a w s rest hw h0 h1]
    constructor
    · exact List.mem_append.mpr (Or.inr (by simp))
    · exact List.mem_append.mpr (Or.inr (by simp))
  · intro n a w exp w1 hrl h
    obtain ⟨hrun, hexit, hrec⟩ := persistentRun_normal_records n a w exp w1 hrl h
    rw [hrun]
    show (persistentExitNormal w1).records = w.records
    rw [hexit, hrec]

theorem completion_entry_sinks_witness :
    ((initialWorld ["y"]).stdin = "y" :: [] ∧
      (initialWorld ["y"]).rootHandlers = [] ∧ (initialWorld ["y"]).named = []) ∧
    (⟨Sink.console, "t", INFO, "Cleanly exited"⟩ : LogRecord) ∈
      (temporaryRun "t" PValue.pnone false (initialWorld ["y"])).world.records ∧
    (initialWorld []).rootLevel = WARNING ∧
    (persistentRun false "exp1" PValue.pnone false (initialWorld [])).world.records =
      (initialWorld []).records := by
  refine ⟨⟨rfl, rfl, rfl⟩, ?_, rfl, ?_⟩
  · exact (completion_entry_sinks.1 "t" PValue.pnone (initialWorld ["y"])
      "y" [] rfl rfl rfl).2
  · exact completion_entry_sinks.2 "exp1" PValue.pnone (initialWorld [])
      ⟨"exp1", experimentsFolder ++ ["exp1"]⟩ _ rfl (by rfl)
